import Mathlib

/-!
Shallow embedding of `src/twgs/taskwarrior.py` (the TaskWarrior adapter of the
tasksync project): the `TaskWarriorTask` wrapper, the `TaskWarriorTaskFactory`
and the `TaskWarriorTaskRepository`, together with proofs of the behavioural
claims about them.

A TaskWarrior record is a Python dict from string field names to string
values.  We model it as an insertion-ordered association list with Python
dict semantics: lookup returns the first binding, update replaces the first
binding in place, a fresh key is appended, deletion removes the key.
-/

namespace Twgs

/-- A local-store record: insertion-ordered mapping from field name to value. -/
def Record := List (String × String)

/-- Dict lookup: value of the first binding of `k`, if any (`d.get(k)`). -/
def Record.get? : Record → String → Option String
  | [], _ => none
  | (k', v') :: rest, k => if k' = k then some v' else Record.get? rest k

/-- Dict membership (`k in d`). -/
def Record.contains (r : Record) (k : String) : Bool :=
  (r.get? k).isSome

/-- Dict update (`d[k] = v`): replace the first binding in place, else append. -/
def Record.set : Record → String → String → Record
  | [], k, v => [(k, v)]
  | (k', v') :: rest, k, v =>
    if k' = k then (k, v) :: rest else (k', v') :: Record.set rest k v

/-- Dict deletion (`del d[k]`): remove every binding of `k`. -/
def Record.erase : Record → String → Record
  | [], _ => []
  | (k', v') :: rest, k =>
    if k' = k then Record.erase rest k else (k', v') :: Record.erase rest k

instance : DecidableEq Record :=
  inferInstanceAs (DecidableEq (List (String × String)))

instance : Membership (String × String) Record :=
  inferInstanceAs (Membership (String × String) (List (String × String)))

/-- `startswith` on key characters: `p` is an initial segment of `s`. -/
def charsStartWith : List Char → List Char → Bool
  | _, [] => true
  | [], _ :: _ => false
  | c :: cs, d :: ds => c = d && charsStartWith cs ds

/-- Python `s.startswith(p)`. -/
def strStartsWith (s p : String) : Bool :=
  charsStartWith s.data p.data

/-! ### Date encoding

`TaskWarriorTask.__format_date` renders a timestamp to epoch seconds with
`datetime.strftime(ts, str-percent-s)` and `TaskWarriorTask.__parse_date`
reads it back with `datetime.fromtimestamp(int(s))`.  Both wrap the external
`datetime` library, which is not part of this repository; the spec fixes its
contract: dates are stored as epoch-second strings and "conversion is
lossless to the second".  We model a timestamp as its epoch seconds (an
integer) and give an executable decimal encoding with a proved round trip. -/

/-- Decimal digit to character. -/
def digitToChar (d : Nat) : Char := Char.ofNat (48 + d)

/-- Character to decimal digit value. -/
def charToDigit (c : Char) : Nat := c.toNat - 48

/-- Decimal rendering of a natural number, most significant digit first. -/
def natToChars (n : Nat) : List Char :=
  if _h : n < 10 then [digitToChar n]
  else natToChars (n / 10) ++ [digitToChar (n % 10)]
decreasing_by exact Nat.div_lt_self (by omega) (by omega)

/-- Fold a digit string back into a natural number. -/
def charsToNat : List Char → Nat → Nat
  | [], acc => acc
  | c :: cs, acc => charsToNat cs (acc * 10 + charToDigit c)

/-- Modelled from the spec: `datetime.strftime(ts, str-percent-s)` used by
`TaskWarriorTask.__format_date` — the timestamp printed as epoch seconds. -/
def format_date (t : Int) : String :=
  if t < 0 then ⟨'-' :: natToChars t.natAbs⟩ else ⟨natToChars t.natAbs⟩

/-- Modelled from the spec: `int(s)` as used by `TaskWarriorTask.__parse_date`
— read a (possibly signed) decimal string, `none` on malformed input (the
Python code raises there). -/
def parseIntChars : List Char → Option Int
  | [] => none
  | c :: cs =>
    if c = '-' then
      if cs ≠ [] ∧ cs.all Char.isDigit then some (-(charsToNat cs 0 : Nat))
      else none
    else
      if (c :: cs).all Char.isDigit then some ((charsToNat (c :: cs) 0 : Nat))
      else none

/-- `TaskWarriorTask.__parse_date`: `None` maps to `None`, otherwise the
epoch-second string is decoded to a timestamp. -/
def parse_date : Option String → Option Int
  | none => none
  | some s => parseIntChars s.data

/-! ### The generic upstream task

An upstream task (a `twgs.Task` from some provider) as this adapter consumes
it: identifier, provider name, change tag, and the four copied fields. -/

/-- The upstream counterpart task, as read by the adapter. -/
structure UpstreamTask where
  uid : String
  provider : String
  etag : String
  project : Option String
  subject : Option String
  due : Option Int
  completed : Option Int

/-! ### `TaskWarriorTask` -/

/-- `TaskWarriorTask.__UDA_NAMESPACE`. -/
def UDA_NAMESPACE : String := "twgs"

/-- `TaskWarriorTask.__UDA_ASSOCIATION` (`"%s_assoc" % namespace`). -/
def UDA_ASSOCIATION : String := UDA_NAMESPACE ++ "_assoc"

/-- `TaskWarriorTask.__UDA_ETAG` (`"%s_etag" % namespace`). -/
def UDA_ETAG : String := UDA_NAMESPACE ++ "_etag"

/-- `TaskWarriorTask.stale`: false when the etag field was never recorded,
otherwise true exactly when the recorded etag differs from `other.etag`. -/
def stale (r : Record) (other : UpstreamTask) : Bool :=
  if r.contains UDA_ETAG = false then false
  else r.get? UDA_ETAG != some other.etag

/-- Modelled from the spec: `Task._set_or_delete` lives in the unseen `twgs`
base module; per the spec a field is "cleared (key removed) when the
corresponding upstream value is none, and set otherwise", the value being
rendered through the format callback when one is given. -/
def Record.set_or_delete {α : Type} (r : Record) (k : String) (v : Option α)
    (fmt : α → String) : Record :=
  match v with
  | none => r.erase k
  | some x => r.set k (fmt x)

/-- Error values raised by the embedded operations. -/
inductive TwgsError where
  | keyError : String → TwgsError
  | valueError : String → TwgsError
deriving DecidableEq

/-- `TaskWarriorTask.copy_from`: refuse an absent source, otherwise apply the
set-or-delete policy to `project`, `description`, `due` and `end` (the last
two through the date format callback). -/
def copy_from (r : Record) (other : Option UpstreamTask) :
    Except TwgsError Record :=
  match other with
  | none => .error (.valueError "Cannot sync with nothing.")
  | some o =>
    .ok ((((r.set_or_delete "project" o.project id).set_or_delete
        "description" o.subject id).set_or_delete
        "due" o.due format_date).set_or_delete
        "end" o.completed format_date)

/-- `TaskWarriorTask.uid` (`self._source.get('uuid', None)`). -/
def uid (r : Record) : Option String := r.get? "uuid"

/-- `TaskWarriorTask.status` (`self._source['status']`; `none` models the
KeyError on a record missing the mandatory field). -/
def status (r : Record) : Option String := r.get? "status"

/-- `TaskWarriorTask.project`. -/
def project (r : Record) : Option String := r.get? "project"

/-- `TaskWarriorTask.subject` (`self._source['description']`). -/
def subject (r : Record) : Option String := r.get? "description"

/-- `TaskWarriorTask.due`. -/
def due (r : Record) : Option Int := parse_date (r.get? "due")

/-- `TaskWarriorTask.completed` (parses the `end` field). -/
def completed (r : Record) : Option Int := parse_date (r.get? "end")

/-- `TaskWarriorTask.association`: the value of the first record key that
starts with the association key prefix, scanning in key order. -/
def association : Record → Option String
  | [] => none
  | (k, v) :: rest =>
    if strStartsWith k UDA_ASSOCIATION then some v else association rest

/-- Modelled from the spec: `is_deleted` comes from the unseen `twgs` base
class; the spec enumerates `status` as pending/completed/deleted/recurring
and calls a task deleted when it is "marked deleted". -/
def is_deleted (st : String) : Bool := st = "deleted"

/-- Modelled from the spec: `is_completed` comes from the unseen `twgs` base
class; a task is completed when its status is `completed`. -/
def is_completed (st : String) : Bool := st = "completed"

/-- Modelled from the spec: `is_pending` comes from the unseen `twgs` base
class; a task is pending when its status is `pending`. -/
def is_pending (st : String) : Bool := st = "pending"

/-- `TaskWarriorTask.should_sync`; `none` models the KeyError raised by the
`status` access on a record missing that mandatory field. -/
def should_sync (r : Record) : Option Bool :=
  (status r).map fun st =>
    if st = "recurring" || is_deleted st then false
    else if is_completed st && (association r).isNone then false
    else true

/-- `TaskWarriorTask._association_key_for` (`"%s_%s" % (assoc, provider)`). -/
def association_key_for (upstream : UpstreamTask) : String :=
  UDA_ASSOCIATION ++ "_" ++ upstream.provider

/-- `TaskWarriorTask.is_associated_with`. -/
def is_associated_with (r : Record) (other : UpstreamTask) : Bool :=
  match r.get? (association_key_for other) with
  | some v => v = other.uid
  | none => false

/-- `TaskWarriorTask.associate_with`: write the provider-scoped association
key and overwrite the etag field, in place. -/
def associate_with (r : Record) (other : UpstreamTask) : Record :=
  (r.set (association_key_for other) other.uid).set UDA_ETAG other.etag

/-! ### `TaskWarriorTaskFactory`

`create_from(**kwargs)` takes keyword arguments; we model the presence of
the `map` and `other` keywords as two `Option` parameters.  The `other`
keyword may itself carry Python's `None`, hence the nested option: it is
handed to `copy_from`, which rejects `None`. -/

/-- `TaskWarriorTaskFactory.create_from`: a present `map` wins and is wrapped
as is (a dict `.copy()` — the identity on immutable values); else a present
`other` seeds a fresh pending record and copies from it; else a KeyError. -/
def create_from (mapArg : Option Record)
    (otherArg : Option (Option UpstreamTask)) : Except TwgsError Record :=
  match mapArg with
  | some m => .ok m
  | none =>
    match otherArg with
    | some other => copy_from [("status", "pending")] other
    | none =>
      .error (.keyError "Either a map or task argument must be provided.")

/-! ### `TaskWarriorTaskRepository`

The taskw database client is an external collaborator; `save` calls three of
its operations.  We model the client as a record of functions from the field
set it receives to the canonical record it returns, and have `save` also
emit the trace of store calls it makes, so that "which fields reach the
store" is visible in the result. -/

/-- The taskw client operations used by `save`, each returning the store's
canonical record. -/
structure Store where
  task_add : Record → Record
  task_update : Record → Record
  task_done : Record → Record

/-- One call made to the store, with the exact field set passed to it. -/
inductive StoreCall where
  | add : Record → StoreCall
  | update : Record → StoreCall
  | done : Record → StoreCall
deriving DecidableEq

/-- The field subset `save` passes to `task_done`: the dict comprehension
keeping exactly the `uuid` and `end` keys. -/
def completionKeys (r : Record) : Record :=
  r.filter fun p => p.1 = "uuid" || p.1 = "end"

/-- Modelled from the spec: the wrapper-level `is_pending` of the unseen
`twgs` base class, as `save` consults it — the record's status is `pending`
(false on a record missing the mandatory status field). -/
def task_is_pending (r : Record) : Bool :=
  match status r with
  | some st => is_pending st
  | none => false

/-- The record `save` holds after its create-or-update step: the store's
returned record replaces the source on the create path. -/
def saveStep1 (db : Store) (r : Record) : Record :=
  match r.get? "uuid" with
  | none => db.task_add r
  | some _ => r

/-- `TaskWarriorTaskRepository.save` on a wrapper holding record `r`: create
when `uid` is none (the returned record replaces the source) or update
otherwise (return value discarded); then, when the task is pending and
carries a completion timestamp, call `task_done` with only the `uuid` and
`end` fields and let its returned record replace the source.  The result is
the wrapper's final record and the trace of store calls. -/
def save (db : Store) (r : Record) : Record × List StoreCall :=
  let step1 : Record × List StoreCall :=
    match r.get? "uuid" with
    | none => (db.task_add r, [StoreCall.add r])
    | some _ => (r, [StoreCall.update r])
  let r1 := step1.1
  if task_is_pending r1 && (completed r1).isSome then
    (db.task_done (completionKeys r1), step1.2 ++ [StoreCall.done (completionKeys r1)])
  else
    (r1, step1.2)

/-! ### Concrete sample data, used by witnesses and counterexamples -/

/-- A sample upstream task with every field populated. -/
def sampleUpstream : UpstreamTask :=
  { uid := "u-17", provider := "gtasks", etag := "etag-1",
    project := some "home", subject := some "buy milk",
    due := some 1700000000, completed := some 1700000500 }

/-- A sample upstream task with every optional field absent. -/
def sampleUpstreamEmpty : UpstreamTask :=
  { uid := "u-18", provider := "gtasks", etag := "etag-2",
    project := none, subject := none, due := none, completed := none }

/-- A minimal pending record with no etag field. -/
def samplePending : Record := [("status", "pending"), ("description", "x")]

/-- A record whose etag field matches `sampleUpstream`. -/
def sampleEtagSame : Record :=
  [("status", "pending"), ("description", "x"), ("twgs_etag", "etag-1")]

/-- A record whose etag field differs from `sampleUpstream`. -/
def sampleEtagDiff : Record :=
  [("status", "pending"), ("description", "x"), ("twgs_etag", "old")]

/-- A completed record carrying an association field. -/
def sampleCompletedAssoc : Record :=
  [("status", "completed"), ("description", "x"),
   ("twgs_assoc_gtasks", "u-17"), ("twgs_etag", "etag-1")]

/-- A completed record with no association field. -/
def sampleCompletedBare : Record :=
  [("status", "completed"), ("description", "x")]

/-- A deleted record. -/
def sampleDeleted : Record := [("status", "deleted"), ("description", "x")]

/-- A recurring record. -/
def sampleRecurring : Record := [("status", "recurring"), ("description", "x")]

/-- A pending, never-saved record that carries a completion timestamp. -/
def sampleToComplete : Record :=
  [("status", "pending"), ("description", "x"), ("end", "1700000500")]

/-- A sample store: create assigns a uuid, update echoes, complete marks the
received field set completed. -/
def sampleStore : Store :=
  { task_add := fun r => r.set "uuid" "u-new",
    task_update := fun r => r,
    task_done := fun keys => keys.set "status" "completed" }

/-! ### Record lemmas -/

theorem Record.get?_set_self (r : Record) (k v : String) :
    (r.set k v).get? k = some v := by
  induction r with
  | nil => simp [Record.set, Record.get?]
  | cons p rest ih =>
    obtain ⟨k1, v1⟩ := p
    by_cases h : k1 = k
    · simp [Record.set, Record.get?, h]
    · simp [Record.set, Record.get?, h, ih]

theorem Record.get?_set_ne (r : Record) {k1 k2 : String} (h : k1 ≠ k2)
    (v : String) : (r.set k2 v).get? k1 = r.get? k1 := by
  induction r with
  | nil => simp [Record.set, Record.get?, Ne.symm h]
  | cons p rest ih =>
    obtain ⟨ka, va⟩ := p
    by_cases hk : ka = k2
    · subst hk
      simp [Record.set, Record.get?, Ne.symm h]
    · simp [Record.set, Record.get?, hk, ih]

theorem Record.get?_erase_self (r : Record) (k : String) :
    (r.erase k).get? k = none := by
  induction r with
  | nil => simp [Record.erase, Record.get?]
  | cons p rest ih =>
    obtain ⟨ka, va⟩ := p
    by_cases hk : ka = k
    · simp [Record.erase, hk, ih]
    · simp [Record.erase, Record.get?, hk, ih]

theorem Record.get?_erase_ne (r : Record) {k1 k2 : String} (h : k1 ≠ k2) :
    (r.erase k2).get? k1 = r.get? k1 := by
  induction r with
  | nil => simp [Record.erase]
  | cons p rest ih =>
    obtain ⟨ka, va⟩ := p
    by_cases hk : ka = k2
    · subst hk
      simp [Record.erase, Record.get?, Ne.symm h, ih]
    · simp [Record.erase, Record.get?, hk, ih]

theorem Record.get?_set_or_delete_self {α : Type} (r : Record) (k : String)
    (v : Option α) (fmt : α → String) :
    (r.set_or_delete k v fmt).get? k = v.map fmt := by
  cases v with
  | none => simp [Record.set_or_delete, Record.get?_erase_self]
  | some x => simp [Record.set_or_delete, Record.get?_set_self]

theorem Record.get?_set_or_delete_ne {α : Type} (r : Record) {k1 k2 : String}
    (h : k1 ≠ k2) (v : Option α) (fmt : α → String) :
    (r.set_or_delete k2 v fmt).get? k1 = r.get? k1 := by
  cases v with
  | none => simp [Record.set_or_delete, Record.get?_erase_ne r h]
  | some x => simp [Record.set_or_delete, Record.get?_set_ne r h]

/-! ### String lemmas -/

theorem str_data_append (a b : String) : (a ++ b).data = a.data ++ b.data := by
  cases a; cases b; rfl

theorem str_length_append (a b : String) :
    (a ++ b).length = a.length + b.length := by
  cases a; cases b; simp [String.length, String.append]

theorem charsStartWith_append (l m : List Char) :
    charsStartWith (l ++ m) l = true := by
  induction l with
  | nil => cases m <;> simp [charsStartWith]
  | cons c cs ih => simp [charsStartWith, ih]

theorem association_key_eq (o : UpstreamTask) :
    association_key_for o = "twgs_assoc_" ++ o.provider := by
  rw [association_key_for]
  have h : UDA_ASSOCIATION ++ "_" = "twgs_assoc_" := rfl
  rw [h]

theorem association_key_starts (o : UpstreamTask) :
    strStartsWith (association_key_for o) UDA_ASSOCIATION = true := by
  rw [association_key_for, strStartsWith, str_data_append, str_data_append,
    List.append_assoc]
  exact charsStartWith_append _ _

theorem association_key_ne_etag (o : UpstreamTask) :
    association_key_for o ≠ UDA_ETAG := by
  intro h
  have hlen := congrArg String.length h
  rw [association_key_for, str_length_append] at hlen
  have h1 : (UDA_ASSOCIATION ++ "_").length = 11 := by decide
  have h2 : UDA_ETAG.length = 9 := by decide
  omega

theorem association_isSome_of_contains (r : Record) (k : String)
    (hk : strStartsWith k UDA_ASSOCIATION = true) (h : r.contains k = true) :
    (association r).isSome = true := by
  induction r with
  | nil => simp [Record.contains, Record.get?] at h
  | cons p rest ih =>
    obtain ⟨ka, va⟩ := p
    rw [association]
    by_cases hs : strStartsWith ka UDA_ASSOCIATION = true
    · simp [hs]
    · have hne : ka ≠ k := by
        intro e
        rw [e] at hs
        exact hs hk
      rw [if_neg (by simpa using hs)]
      apply ih
      simpa [Record.contains, Record.get?, hne] using h

/-! ### Date round trip -/

theorem charToDigit_digitToChar {d : Nat} (h : d < 10) :
    charToDigit (digitToChar d) = d := by
  interval_cases d <;> decide

theorem isDigit_digitToChar {d : Nat} (h : d < 10) :
    (digitToChar d).isDigit = true := by
  interval_cases d <;> decide

theorem charsToNat_append (l : List Char) (c : Char) :
    ∀ acc, charsToNat (l ++ [c]) acc = (charsToNat l acc) * 10 + charToDigit c := by
  induction l with
  | nil => intro acc; rfl
  | cons d ds ih =>
    intro acc
    simp only [List.cons_append, charsToNat, List.append_eq]
    rw [ih]

theorem natToChars_ne_nil (n : Nat) : natToChars n ≠ [] := by
  rw [natToChars]
  split <;> simp

theorem natToChars_all_digit (n : Nat) :
    (natToChars n).all Char.isDigit = true := by
  induction n using Nat.strong_induction_on with
  | _ n ih =>
    rw [natToChars]
    split
    · next h => simpa using isDigit_digitToChar h
    · next h =>
      have h10 : n / 10 < n := Nat.div_lt_self (by omega) (by omega)
      have hm : n % 10 < 10 := Nat.mod_lt _ (by omega)
      simp [List.all_append, ih _ h10, isDigit_digitToChar hm]

theorem charsToNat_natToChars (n : Nat) : charsToNat (natToChars n) 0 = n := by
  induction n using Nat.strong_induction_on with
  | _ n ih =>
    rw [natToChars]
    split
    · next h => simp [charsToNat, charToDigit_digitToChar h]
    · next h =>
      have h10 : n / 10 < n := Nat.div_lt_self (by omega) (by omega)
      have hm : n % 10 < 10 := Nat.mod_lt _ (by omega)
      rw [charsToNat_append, ih _ h10, charToDigit_digitToChar hm]
      omega

theorem parseIntChars_natToChars (n : Nat) :
    parseIntChars (natToChars n) = some (n : Int) := by
  obtain ⟨c, cs, hcc⟩ : ∃ c cs, natToChars n = c :: cs := by
    cases hh : natToChars n with
    | nil => exact absurd hh (natToChars_ne_nil n)
    | cons c cs => exact ⟨c, cs, rfl⟩
  have hall : (c :: cs).all Char.isDigit = true := hcc ▸ natToChars_all_digit n
  have hc : c.isDigit = true := by
    rw [List.all_cons, Bool.and_eq_true] at hall
    exact hall.1
  have hcne : c ≠ '-' := by
    intro e
    rw [e] at hc
    exact absurd hc (by decide)
  rw [hcc, parseIntChars, if_neg hcne, if_pos hall]
  have hrt := charsToNat_natToChars n
  rw [hcc] at hrt
  rw [hrt]

theorem parse_format_date (t : Int) :
    parse_date (some (format_date t)) = some t := by
  rw [parse_date, format_date]
  by_cases ht : t < 0
  · rw [if_pos ht]
    show parseIntChars ('-' :: natToChars t.natAbs) = some t
    rw [parseIntChars, if_pos rfl]
    have hne : natToChars t.natAbs ≠ [] := natToChars_ne_nil _
    have hall : (natToChars t.natAbs).all Char.isDigit = true :=
      natToChars_all_digit _
    rw [if_pos ⟨hne, hall⟩, charsToNat_natToChars]
    have : ((t.natAbs : Nat) : Int) = -t := by omega
    rw [this, neg_neg]
  · rw [if_neg ht]
    show parseIntChars (natToChars t.natAbs) = some t
    rw [parseIntChars_natToChars]
    have : ((t.natAbs : Nat) : Int) = t := by omega
    rw [this]

/-! ### Shared consequences of `associate_with` and `copy_from` -/

theorem get?_associate_with_key (r : Record) (o : UpstreamTask) :
    (associate_with r o).get? (association_key_for o) = some o.uid := by
  rw [associate_with, Record.get?_set_ne _ (association_key_ne_etag o)]
  exact Record.get?_set_self _ _ _

theorem get?_associate_with_etag (r : Record) (o : UpstreamTask) :
    (associate_with r o).get? UDA_ETAG = some o.etag := by
  rw [associate_with]
  exact Record.get?_set_self _ _ _

theorem copy_from_ok (r : Record) (o : UpstreamTask) :
    ∃ r' : Record, copy_from r (some o) = Except.ok r' ∧
      r'.get? "project" = o.project.map id ∧
      r'.get? "description" = o.subject.map id ∧
      r'.get? "due" = o.due.map format_date ∧
      r'.get? "end" = o.completed.map format_date := by
  have hpds : ("project" : String) ≠ "description" := by decide
  have hpdu : ("project" : String) ≠ "due" := by decide
  have hpe : ("project" : String) ≠ "end" := by decide
  have hddu : ("description" : String) ≠ "due" := by decide
  have hde : ("description" : String) ≠ "end" := by decide
  have hdue : ("due" : String) ≠ "end" := by decide
  refine ⟨_, rfl, ?_, ?_, ?_, ?_⟩
  · rw [Record.get?_set_or_delete_ne _ hpe, Record.get?_set_or_delete_ne _ hpdu,
      Record.get?_set_or_delete_ne _ hpds, Record.get?_set_or_delete_self]
  · rw [Record.get?_set_or_delete_ne _ hde, Record.get?_set_or_delete_ne _ hddu,
      Record.get?_set_or_delete_self]
  · rw [Record.get?_set_or_delete_ne _ hdue, Record.get?_set_or_delete_self]
  · rw [Record.get?_set_or_delete_self]

/-! ### The claims -/

/-- C1: a record without the `twgs_etag` field is never stale, whatever the
upstream task; a record carrying the etag field is not stale when the stored
etag equals `other.etag` and stale when it differs. -/
theorem claim_C1 (r : Record) (o : UpstreamTask) :
    (r.contains UDA_ETAG = false → stale r o = false) ∧
    (∀ v, r.get? UDA_ETAG = some v →
      (v = o.etag → stale r o = false) ∧ (v ≠ o.etag → stale r o = true)) := by
  constructor
  · intro h
    simp [stale, h]
  · intro v hv
    have hc : r.contains UDA_ETAG = true := by simp [Record.contains, hv]
    constructor <;> intro hve <;> simp [stale, hc, hv, hve]

/-- Witness for C1 at concrete records: no etag field, matching etag,
differing etag. -/
theorem claim_C1_witness :
    stale samplePending sampleUpstream = false ∧
    stale sampleEtagSame sampleUpstream = false ∧
    stale sampleEtagDiff sampleUpstream = true :=
  ⟨(claim_C1 samplePending sampleUpstream).1 (by decide),
   ((claim_C1 sampleEtagSame sampleUpstream).2 "etag-1" (by decide)).1 (by decide),
   ((claim_C1 sampleEtagDiff sampleUpstream).2 "old" (by decide)).2 (by decide)⟩

/-- C2: `should_sync` is false for a recurring or deleted task, false for a
completed task with no association, and true in every other case — in
particular for a pending task and for a completed task with an
association. -/
theorem claim_C2 (r : Record) (st : String) (h : status r = some st) :
    (st = "recurring" → should_sync r = some false) ∧
    (is_deleted st = true → should_sync r = some false) ∧
    (is_completed st = true → association r = none → should_sync r = some false) ∧
    (is_completed st = true → (association r).isSome = true →
      should_sync r = some true) ∧
    (st = "pending" → should_sync r = some true) ∧
    (st ≠ "recurring" → is_deleted st = false →
      ¬(is_completed st = true ∧ association r = none) →
      should_sync r = some true) := by
  refine ⟨?_, ?_, ?_, ?_, ?_, ?_⟩
  · intro h1
    simp [should_sync, h, h1]
  · intro h1
    simp [is_deleted] at h1
    simp [should_sync, h, h1, is_deleted]
  · intro h1 h2
    simp [is_completed] at h1
    simp [should_sync, h, h1, h2, is_deleted, is_completed]
  · intro h1 h2
    simp [is_completed] at h1
    obtain ⟨x, hx⟩ := Option.isSome_iff_exists.mp h2
    simp [should_sync, h, h1, hx, is_deleted, is_completed]
  · intro h1
    simp [should_sync, h, h1, is_deleted, is_completed]
  · intro h1 h2 h3
    simp [is_deleted] at h2
    by_cases hcp : is_completed st = true
    · have hassoc : association r ≠ none := fun hn => h3 ⟨hcp, hn⟩
      obtain ⟨x, hx⟩ := Option.ne_none_iff_exists'.mp hassoc
      simp [is_completed] at hcp
      simp [should_sync, h, h1, h2, hcp, hx, is_deleted]
    · simp [is_completed] at hcp
      simp [should_sync, h, h1, h2, hcp, is_deleted, is_completed]

/-- Witness for C2 at the five concrete status/association combinations the
claim names. -/
theorem claim_C2_witness :
    should_sync sampleRecurring = some false ∧
    should_sync sampleDeleted = some false ∧
    should_sync sampleCompletedBare = some false ∧
    should_sync sampleCompletedAssoc = some true ∧
    should_sync samplePending = some true :=
  ⟨(claim_C2 sampleRecurring "recurring" (by decide)).1 rfl,
   (claim_C2 sampleDeleted "deleted" (by decide)).2.1 (by decide),
   (claim_C2 sampleCompletedBare "completed" (by decide)).2.2.1 (by decide)
     (by decide),
   (claim_C2 sampleCompletedAssoc "completed" (by decide)).2.2.2.1 (by decide)
     (by decide),
   (claim_C2 samplePending "pending" (by decide)).2.2.2.2.1 rfl⟩

/-- C6: immediately after `associate_with other`, the record is associated
with `other` and is not stale against it. -/
theorem claim_C6 (r : Record) (o : UpstreamTask) :
    is_associated_with (associate_with r o) o = true ∧
    stale (associate_with r o) o = false := by
  constructor
  · simp [is_associated_with, get?_associate_with_key r o]
  · have hc : (associate_with r o).contains UDA_ETAG = true := by
      rw [Record.contains, get?_associate_with_etag r o]
      rfl
    simp [stale, hc, get?_associate_with_etag r o]

/-- C7: `copy_from` with an absent source signals a ValueError before any
mutation; in this pure embedding the error result carries no record at all,
so the wrapper's record is untouched. -/
theorem claim_C7 (r : Record) :
    copy_from r none =
      Except.error (TwgsError.valueError "Cannot sync with nothing.") := rfl

/-- C8: the factory with neither a `map` nor an `other` keyword raises a
KeyError and never yields a record. -/
theorem claim_C8 :
    create_from none none =
      Except.error
        (TwgsError.keyError "Either a map or task argument must be provided.") :=
  rfl

/-- C9: when both keywords are supplied, the `map` wins: the result wraps the
map itself, `copy_from` is never applied, and dropping the `other` argument
changes nothing. -/
theorem claim_C9 (m : Record) (o : Option UpstreamTask) :
    create_from (some m) (some o) = Except.ok m ∧
    create_from (some m) (some o) = create_from (some m) none :=
  ⟨rfl, rfl⟩

/-- C4: after `copy_from(other)` each of project, subject, due and completed
equals the corresponding upstream value, and a field whose upstream value is
none has its record key removed rather than set to a sentinel. -/
theorem claim_C4 (r : Record) (o : UpstreamTask) :
    ∃ r' : Record, copy_from r (some o) = Except.ok r' ∧
      project r' = o.project ∧
      subject r' = o.subject ∧
      due r' = o.due ∧
      completed r' = o.completed ∧
      (o.project = none → r'.contains "project" = false) ∧
      (o.subject = none → r'.contains "description" = false) ∧
      (o.due = none → r'.contains "due" = false) ∧
      (o.completed = none → r'.contains "end" = false) := by
  obtain ⟨r', hok, hp, hd, hdu, he⟩ := copy_from_ok r o
  refine ⟨r', hok, ?_, ?_, ?_, ?_, ?_, ?_, ?_, ?_⟩
  · rw [project, hp]
    cases o.project <;> rfl
  · rw [subject, hd]
    cases o.subject <;> rfl
  · rw [due, hdu]
    cases o.due with
    | none => rfl
    | some t => exact parse_format_date t
  · rw [completed, he]
    cases o.completed with
    | none => rfl
    | some t => exact parse_format_date t
  · intro h0
    rw [Record.contains, hp, h0]
    rfl
  · intro h0
    rw [Record.contains, hd, h0]
    rfl
  · intro h0
    rw [Record.contains, hdu, h0]
    rfl
  · intro h0
    rw [Record.contains, he, h0]
    rfl

/-- Witness for C4 at a concrete record against a fully populated upstream
task. -/
theorem claim_C4_witness :
    ∃ r' : Record, copy_from samplePending (some sampleUpstream) = Except.ok r' ∧
      project r' = sampleUpstream.project ∧
      subject r' = sampleUpstream.subject ∧
      due r' = sampleUpstream.due ∧
      completed r' = sampleUpstream.completed ∧
      (sampleUpstream.project = none → r'.contains "project" = false) ∧
      (sampleUpstream.subject = none → r'.contains "description" = false) ∧
      (sampleUpstream.due = none → r'.contains "due" = false) ∧
      (sampleUpstream.completed = none → r'.contains "end" = false) :=
  claim_C4 samplePending sampleUpstream

/-- Counterexample to C5 as stated: at provider `gtasks`, `associate_with`
leaves the key `twgs_gtasks_assoc` absent; the identifier actually lands
under `twgs_assoc_gtasks`. -/
theorem claim_C5_counterexample :
    (associate_with ([] : Record) sampleUpstream).get?
        ("twgs_" ++ sampleUpstream.provider ++ "_assoc") = none ∧
    (associate_with ([] : Record) sampleUpstream).get?
        ("twgs_assoc_" ++ sampleUpstream.provider) =
      some sampleUpstream.uid := by
  constructor <;> decide

/-- C5 as amended: `associate_with(other)` stores `other.uid` under the
namespaced key `twgs_assoc_<provider>` (the shared stem `twgs_assoc`
followed by an underscore and the provider), and the association accessor
finds it since it scans for keys beginning with that stem. -/
theorem claim_C5_amended (r : Record) (o : UpstreamTask) :
    (associate_with r o).get? ("twgs_assoc_" ++ o.provider) = some o.uid ∧
    (association (associate_with r o)).isSome = true := by
  constructor
  · rw [← association_key_eq]
    exact get?_associate_with_key r o
  · apply association_isSome_of_contains _ (association_key_for o)
      (association_key_starts o)
    rw [Record.contains, get?_associate_with_key r o]
    rfl

/-- C10: `associate_with(other)` touches at most the provider's association
key and the etag key; every other key keeps its value and its presence. -/
theorem claim_C10 (r : Record) (o : UpstreamTask) (k : String)
    (h1 : k ≠ association_key_for o) (h2 : k ≠ UDA_ETAG) :
    (associate_with r o).get? k = r.get? k ∧
    (associate_with r o).contains k = r.contains k := by
  have hg : (associate_with r o).get? k = r.get? k := by
    rw [associate_with, Record.get?_set_ne _ h2, Record.get?_set_ne _ h1]
  exact ⟨hg, by rw [Record.contains, Record.contains, hg]⟩

/-- Witness for C10: the status field survives an association unchanged. -/
theorem claim_C10_witness :
    (associate_with samplePending sampleUpstream).get? "status" =
      samplePending.get? "status" ∧
    (associate_with samplePending sampleUpstream).contains "status" =
      samplePending.contains "status" :=
  claim_C10 samplePending sampleUpstream "status" (by decide) (by decide)

/-- C3: after the create-or-update step of `save`, the mark-complete call to
the store fires exactly when the task's status is pending and its completed
timestamp is non-none; it receives only the `uuid` and `end` fields, and its
returned record replaces the wrapper's record.  Otherwise no mark-complete
call is made and the wrapper keeps the step-one record. -/
theorem claim_C3 (db : Store) (r : Record) :
    (task_is_pending (saveStep1 db r) = true ∧
        (completed (saveStep1 db r)).isSome = true →
      (save db r).1 = db.task_done (completionKeys (saveStep1 db r)) ∧
      StoreCall.done (completionKeys (saveStep1 db r)) ∈ (save db r).2 ∧
      ∀ p ∈ completionKeys (saveStep1 db r), p.1 = "uuid" ∨ p.1 = "end") ∧
    (¬(task_is_pending (saveStep1 db r) = true ∧
        (completed (saveStep1 db r)).isSome = true) →
      (save db r).1 = saveStep1 db r ∧
      ∀ ks, StoreCall.done ks ∉ (save db r).2) := by
  have hkeys : ∀ r1 : Record, ∀ p ∈ completionKeys r1,
      p.1 = "uuid" ∨ p.1 = "end" := by
    intro r1 p hp
    have := (List.mem_filter.mp hp).2
    simpa using this
  rcases hu : r.get? "uuid" with _ | u <;>
    constructor <;> intro hcond <;>
      simp only [save, saveStep1, hu] at hcond ⊢
  · rw [if_pos (by simpa [Bool.and_eq_true] using hcond)]
    exact ⟨rfl, by simp, hkeys _⟩
  · rw [if_neg (by simpa [Bool.and_eq_true] using hcond)]
    simp
  · rw [if_pos (by simpa [Bool.and_eq_true] using hcond)]
    exact ⟨rfl, by simp, hkeys _⟩
  · rw [if_neg (by simpa [Bool.and_eq_true] using hcond)]
    simp

/-- Witness for C3: a pending, completion-stamped record routed through the
sample store takes the mark-complete path. -/
theorem claim_C3_witness :
    (save sampleStore sampleToComplete).1 =
      sampleStore.task_done
        (completionKeys (saveStep1 sampleStore sampleToComplete)) ∧
    StoreCall.done (completionKeys (saveStep1 sampleStore sampleToComplete)) ∈
      (save sampleStore sampleToComplete).2 ∧
    ∀ p ∈ completionKeys (saveStep1 sampleStore sampleToComplete),
      p.1 = "uuid" ∨ p.1 = "end" :=
  (claim_C3 sampleStore sampleToComplete).1 ⟨by decide, by decide⟩

end Twgs
